import Mathlib

/-!
Shallow embedding of the asynchronous document-extraction orchestrator of
`src/extraction.py` (with the field schema of `src/extraction_class_type.py`).

Modelling conventions:
* Python exceptions are modelled with `Except String`; the string is the
  exception message.
* Network interactions with the model service (`client.responses.create` and
  `client.responses.parse`) are modelled by an oracle record `ModelOracle`
  supplied as a parameter; every function additionally returns the number of
  model-client invocations it performed (`Nat`), so that claims about
  "zero network calls" are statable.
* `json.loads` from the Python standard library is modelled by a parameter
  `jsonLoads : String → Option JsonValue`: `some v` models a successful
  strict parse, `none` models `json.JSONDecodeError`.
* `asyncio.gather` is modelled by `gatherResults`, parameterised by the
  completion order of the tasks (a list of task indices): the first task in
  completion order that raised determines the exception `gather` re-raises;
  when no task raised, results are assembled by task index (as `gather` does),
  not by completion order.
-/

namespace Extraction

/-- Values produced by `json.loads`: the JSON data model. -/
inductive JsonValue : Type
  | obj (fields : List (String × JsonValue))
  | arr (elems : List JsonValue)
  | str (s : String)
  | num (n : Int)
  | bool (b : Bool)
  | null

/-- The pydantic model `ExtractionClass` of `src/extraction_class_type.py`:
22 required string fields. -/
structure ExtractionClass where
  fullName : String
  address : String
  loanType : String
  loanAmount : String
  emiComfort : String
  monthlyObligations : String
  incomeSource : String
  salaryAmount : String
  designationEmployer : String
  otherIncomeSources : String
  businessRevenue : String
  businessProfit : String
  businessSalary : String
  atPropertyLocation : String
  propertyAddress : String
  propertyType : String
  propertyStructure : String
  propertyUsage : String
  landArea : String
  marketValue : String
  existingLoan : String
  existingLoanEmi : String

/-- The field names of `ExtractionClass`, in declaration order. -/
def extractionFieldNames : List String :=
  ["fullName", "address", "loanType", "loanAmount", "emiComfort",
   "monthlyObligations", "incomeSource", "salaryAmount", "designationEmployer",
   "otherIncomeSources", "businessRevenue", "businessProfit", "businessSalary",
   "atPropertyLocation", "propertyAddress", "propertyType", "propertyStructure",
   "propertyUsage", "landArea", "marketValue", "existingLoan", "existingLoanEmi"]

/-- Serialization of an `ExtractionClass` instance as an ordered mapping of
field name to string value (pydantic model dump order = declaration order). -/
def ExtractionClass.model_dump (r : ExtractionClass) : List (String × String) :=
  [("fullName", r.fullName), ("address", r.address), ("loanType", r.loanType),
   ("loanAmount", r.loanAmount), ("emiComfort", r.emiComfort),
   ("monthlyObligations", r.monthlyObligations), ("incomeSource", r.incomeSource),
   ("salaryAmount", r.salaryAmount), ("designationEmployer", r.designationEmployer),
   ("otherIncomeSources", r.otherIncomeSources), ("businessRevenue", r.businessRevenue),
   ("businessProfit", r.businessProfit), ("businessSalary", r.businessSalary),
   ("atPropertyLocation", r.atPropertyLocation), ("propertyAddress", r.propertyAddress),
   ("propertyType", r.propertyType), ("propertyStructure", r.propertyStructure),
   ("propertyUsage", r.propertyUsage), ("landArea", r.landArea),
   ("marketValue", r.marketValue), ("existingLoan", r.existingLoan),
   ("existingLoanEmi", r.existingLoanEmi)]

/-- A Python value returned by `parse_response_content`: either what
`json.loads` produced (a JSON value, line 152 / line 172 of
`src/extraction.py`) or an `ExtractionClass` instance (line 170). -/
inductive PyResult : Type
  | json (v : JsonValue)
  | record (r : ExtractionClass)

/-- The key set of a returned value, when it is dict-like: the keys of a JSON
object, or the fixed schema fields of an `ExtractionClass` instance. -/
def PyResult.keys : PyResult → Option (List String)
  | .json (JsonValue.obj fields) => some (fields.map Prod.fst)
  | .json _ => none
  | .record _ => some extractionFieldNames

/-- The value returned by `client.responses.parse` as scrutinised by lines
169-172 of `src/extraction.py`: a falsy value, an `ExtractionClass` instance
(truthy), or some other truthy object of the wrong type. -/
inductive CoerceResult : Type
  | falsy
  | record (r : ExtractionClass)
  | wrongType

/-- The one content block of the user message that carries the page payload
(lines 71-84 of `src/extraction.py`). -/
inductive Content : Type
  | inputImage (image_url : String)
  | inputText (text : String)

/-- The model-service boundary: `createOutput` models
`client.responses.create` (the extraction call, returning `output_text` or
raising), `parseOutput` models `client.responses.parse` (the repair/coercion
call). The prompt built from the three templates is a fixed constant, so it is
not a parameter of the oracle. -/
structure ModelOracle where
  createOutput : Content → Nat → Except String String
  parseOutput : String → CoerceResult

/-- `parse_response_content` (lines 127-172 of `src/extraction.py`):
strict `json.loads` first; on `JSONDecodeError`, one coercion model call,
returning the `ExtractionClass` instance if the result is a truthy instance of
`ExtractionClass`, and the empty dict otherwise. Returns the parsed value and
the number of model calls made. -/
def parse_response_content (jsonLoads : String → Option JsonValue)
    (oracle : ModelOracle) (response_content : String) : PyResult × Nat :=
  match jsonLoads response_content with
  | some v => (PyResult.json v, 0)
  | none =>
    match oracle.parseOutput response_content with
    | CoerceResult.record r => (PyResult.record r, 1)
    | _ => (PyResult.json (JsonValue.obj []), 1)

/-- `extract_fields_async` (lines 38-124 of `src/extraction.py`): builds the
content block for the input type, raises `ValueError` for an unsupported type
before any network call, otherwise makes one extraction call and hands the
output text to `parse_response_content`. Returns the outcome and the number of
model calls made. -/
def extract_fields_async (oracle : ModelOracle)
    (jsonLoads : String → Option JsonValue) (input_type : String)
    (base_64 : String) (text_input : String) (page_number : Nat) :
    Except String PyResult × Nat :=
  if input_type = "PDF" ∨ input_type = "IMAGE" then
    let content := Content.inputImage ("data:image/jpeg;base64," ++ base_64)
    match oracle.createOutput content page_number with
    | Except.error e => (Except.error e, 1)
    | Except.ok output_text =>
      let parsed := parse_response_content jsonLoads oracle output_text
      (Except.ok parsed.1, 1 + parsed.2)
  else if input_type = "TEXT" then
    let content := Content.inputText text_input
    match oracle.createOutput content page_number with
    | Except.error e => (Except.error e, 1)
    | Except.ok output_text =>
      let parsed := parse_response_content jsonLoads oracle output_text
      (Except.ok parsed.1, 1 + parsed.2)
  else
    (Except.error "Unsupported file type. Use 'PDF' or 'IMAGE'.", 0)

/-- The aggregated result dict `{"response": [...], "file_name": ...}` built
by `extract_multiple_pages_async` (line 205 of `src/extraction.py`); the spec
calls it `DocumentResult`. -/
structure FinalResponse where
  response : List PyResult
  file_name : String

/-- The exception `asyncio.gather` re-raises: the first raising task in
completion `order` (each entry is a task index). `none` when no task that
completed raised. -/
def firstErrorIn (tasks : List (Except String α)) : List Nat → Option String
  | [] => none
  | i :: rest =>
    match tasks[i]? with
    | some (Except.error e) => some e
    | _ => firstErrorIn tasks rest

/-- The successful results of the tasks, in task-index order. -/
def okResults : List (Except String α) → List α
  | [] => []
  | Except.ok a :: rest => a :: okResults rest
  | Except.error _ :: rest => okResults rest

/-- `await asyncio.gather(*tasks)` (line 222 of `src/extraction.py`),
parameterised by the completion order of the tasks: re-raises the exception of
the first task (in completion order) that raised; otherwise returns the
results in task-index order. -/
def gatherResults (tasks : List (Except String α)) (order : List Nat) :
    Except String (List α) :=
  match firstErrorIn tasks order with
  | some e => Except.error e
  | none => Except.ok (okResults tasks)

/-- The task list built by the two `for idx, ... in enumerate(...)` loops of
`extract_multiple_pages_async` (lines 211-220 of `src/extraction.py`), or the
`ValueError` of its `else` branch. -/
def pageTasks (oracle : ModelOracle) (jsonLoads : String → Option JsonValue)
    (input_type : String) (base64_images text_inputs : List String) :
    Except String (List (Except String PyResult × Nat)) :=
  if input_type = "PDF" ∨ input_type = "IMAGE" then
    Except.ok (base64_images.enum.map (fun p =>
      extract_fields_async oracle jsonLoads input_type p.2 "" p.1))
  else if input_type = "TEXT" then
    Except.ok (text_inputs.enum.map (fun p =>
      extract_fields_async oracle jsonLoads input_type "" p.2 p.1))
  else
    Except.error "Unsupported file type. Use 'PDF', 'IMAGE', or 'TEXT'."

/-- `extract_multiple_pages_async` (lines 175-226 of `src/extraction.py`):
initialises `final_response`, runs the permanently-disabled `if False:`
combine branch, fans out one `extract_fields_async` task per page, gathers,
and appends the results in order. Returns the outcome and the total number of
model calls made by the page tasks. -/
def extract_multiple_pages_async (oracle : ModelOracle)
    (jsonLoads : String → Option JsonValue) (input_type : String)
    (file_name : String) (base64_images_in : List String)
    (text_inputs : List String) (combine_pages : Bool) (order : List Nat) :
    Except String FinalResponse × Nat :=
  let final_response : FinalResponse := { response := [], file_name := file_name }
  let base64_images :=
    if false then [String.join base64_images_in] else base64_images_in
  match pageTasks oracle jsonLoads input_type base64_images text_inputs with
  | Except.error e => (Except.error e, 0)
  | Except.ok tasks =>
    match gatherResults (tasks.map Prod.fst) order with
    | Except.error e => (Except.error e, (tasks.map Prod.snd).sum)
    | Except.ok results =>
      (Except.ok { final_response with
                     response := final_response.response ++ results },
       (tasks.map Prod.snd).sum)

/-- The pages sequence that `extract_multiple_pages_async` iterates over for a
given (valid) input type. -/
def pagesOf (input_type : String) (base64_images text_inputs : List String) :
    List String :=
  if input_type = "PDF" ∨ input_type = "IMAGE" then base64_images
  else text_inputs

/-- The per-page extraction task for a given (valid) input type: the image
branch passes the page as `base_64`, the text branch as `text_input`. -/
def pageExtract (oracle : ModelOracle) (jsonLoads : String → Option JsonValue)
    (input_type : String) (page : String) (idx : Nat) :
    Except String PyResult × Nat :=
  if input_type = "PDF" ∨ input_type = "IMAGE" then
    extract_fields_async oracle jsonLoads input_type page "" idx
  else
    extract_fields_async oracle jsonLoads input_type "" page idx

/-- Splitting a character list at every occurrence of the separator `c`,
as Python `str.split` with an explicit separator does (the result always has
at least one, possibly empty, piece). -/
def splitOnChar (c : Char) : List Char → List (List Char)
  | [] => [[]]
  | x :: xs =>
    let r := splitOnChar c xs
    if x = c then [] :: r
    else
      match r with
      | [] => [[x]]
      | y :: ys => (x :: y) :: ys

/-- `pdf_path.split("/")[-1]` (lines 267 and 273 of `src/extraction.py`):
the last piece of the path split at every slash. -/
def fileNameOf (path : String) : String :=
  String.mk ((splitOnChar '/' path.toList).getLastD [])

/-- The filesystem / external-collaborator boundary of
`extract_multiple_pdfs`: `base_64_conversation` models the local
page-image conversion of `file_process.py`; `landing_ai_vision_parse` and
`retrieve_page_wise_parse` model the external document-parsing collaborator
(`landing_ai_parse.py`, functions `landing_ai_vision_parser` and
`retrieve_page_wise_parse`), with one opaque parsed-result blob per
document. -/
structure PdfOracles where
  base_64_conversation : String → List String
  landing_ai_vision_parse : List String → Bool → String → List String
  retrieve_page_wise_parse : String → List String

/-- The per-document task list of `extract_multiple_pdfs` (lines 259-274 of
`src/extraction.py`): one `extract_multiple_pages_async` task per input path
(pre-parsed TEXT mode when `use_parse` is true, direct PDF mode otherwise).
`orders` gives each document task its page-completion order. The
`limited_task` semaphore wrapper only bounds concurrency and is invisible
here. -/
def driverTasks (oracle : ModelOracle) (jsonLoads : String → Option JsonValue)
    (po : PdfOracles) (input_paths : List String) (use_parse : Bool)
    (save_parse : Bool) (parsing_json_dir_path : String)
    (orders : Nat → List Nat) : List (Except String FinalResponse × Nat) :=
  if use_parse then
    let parsed_responses :=
      po.landing_ai_vision_parse input_paths save_parse parsing_json_dir_path
    (parsed_responses.zip input_paths).enum.map (fun q =>
      let page_level_text := po.retrieve_page_wise_parse q.2.1
      let pdf_name := fileNameOf q.2.2
      extract_multiple_pages_async oracle jsonLoads "TEXT" pdf_name []
        page_level_text false (orders q.1))
  else
    input_paths.enum.map (fun q =>
      let base64_images := po.base_64_conversation q.2
      let pdf_name := fileNameOf q.2
      extract_multiple_pages_async oracle jsonLoads "PDF" pdf_name
        base64_images [] false (orders q.1))

/-- `extract_multiple_pdfs` (lines 229-282 of `src/extraction.py`): builds the
per-document tasks, gathers them (completion order `docOrder`), then writes
`json.dump(pdf_extraction, f, indent=2)` for each
`zip(multi_pdf_extraction_result, output_paths)` pair. The second component
is the write trace: the list of (output path, document result written) pairs,
in write order. Note the source performs no length check on
`input_paths` / `output_paths`. -/
def extract_multiple_pdfs (oracle : ModelOracle)
    (jsonLoads : String → Option JsonValue) (po : PdfOracles)
    (input_paths output_paths : List String) (use_parse : Bool)
    (save_parse : Bool) (parsing_json_dir_path : String)
    (orders : Nat → List Nat) (docOrder : List Nat) :
    Except String (List FinalResponse) × List (String × FinalResponse) :=
  let tasks := driverTasks oracle jsonLoads po input_paths use_parse
    save_parse parsing_json_dir_path orders
  match gatherResults (tasks.map Prod.fst) docOrder with
  | Except.error e => (Except.error e, [])
  | Except.ok multi_pdf_extraction_result =>
    (Except.ok multi_pdf_extraction_result,
     (multi_pdf_extraction_result.zip output_paths).map (fun p => (p.2, p.1)))

/-! ### Concrete instances used to evaluate the model on closed inputs -/

/-- A model of `json.loads` restricted to the strings exercised below:
`json.loads("\x7b\x7d")` succeeds with the empty JSON object; the other
strings fed to it below (`"not json"`) are not valid JSON and raise
`JSONDecodeError`. -/
def jsonLoadsW : String → Option JsonValue :=
  fun s => if s = "\x7b\x7d" then some (JsonValue.obj []) else none

/-- A model service whose extraction call always answers with the valid JSON
text of the empty object, and whose coercion call returns a falsy value. -/
def emptyJsonOracle : ModelOracle :=
  { createOutput := fun _ _ => Except.ok "\x7b\x7d"
    parseOutput := fun _ => CoerceResult.falsy }

/-- A fully "not available" extraction record. -/
def defaultRecord : ExtractionClass :=
  { fullName := "NA", address := "NA", loanType := "NA", loanAmount := "NA"
    emiComfort := "NA", monthlyObligations := "NA", incomeSource := "NA"
    salaryAmount := "NA", designationEmployer := "NA"
    otherIncomeSources := "NA", businessRevenue := "NA"
    businessProfit := "NA", businessSalary := "NA"
    atPropertyLocation := "NA", propertyAddress := "NA", propertyType := "NA"
    propertyStructure := "NA", propertyUsage := "NA", landArea := "NA"
    marketValue := "NA", existingLoan := "NA", existingLoanEmi := "NA" }

/-- A model service whose extraction call answers with text that is not valid
JSON, and whose coercion call returns a conforming `ExtractionClass`
instance. -/
def recordOracle : ModelOracle :=
  { createOutput := fun _ _ => Except.ok "not json"
    parseOutput := fun _ => CoerceResult.record defaultRecord }

/-- A model service whose extraction call raises a connection error. -/
def failingOracle : ModelOracle :=
  { createOutput := fun _ _ => Except.error "APIConnectionError"
    parseOutput := fun _ => CoerceResult.falsy }

/-- Filesystem oracles: every document converts to a single page image, and
the external parsing collaborator is unused (direct mode). -/
def pdfOraclesW : PdfOracles :=
  { base_64_conversation := fun _ => ["IMG"]
    landing_ai_vision_parse := fun _ _ _ => []
    retrieve_page_wise_parse := fun _ => [] }

/-! ### Helper lemmas about the gather model -/

theorem firstErrorIn_eq_none {α : Type} (tasks : List (Except String α))
    (order : List Nat) (h : ∀ t ∈ tasks, ∃ a, t = Except.ok a) :
    firstErrorIn tasks order = none := by
  induction order with
  | nil => rfl
  | cons i rest ih =>
    cases hg : tasks[i]? with
    | none => simp [firstErrorIn, hg, ih]
    | some t =>
      rcases h t (List.getElem?_mem hg) with ⟨a, rfl⟩
      simp [firstErrorIn, hg, ih]

theorem okResults_length {α : Type} (tasks : List (Except String α))
    (h : ∀ t ∈ tasks, ∃ a, t = Except.ok a) :
    (okResults tasks).length = tasks.length := by
  induction tasks with
  | nil => rfl
  | cons t rest ih =>
    rcases h t (List.mem_cons_self t rest) with ⟨a, rfl⟩
    simp [okResults, ih (fun u hu => h u (List.mem_cons_of_mem _ hu))]

theorem okResults_get {α : Type} (tasks : List (Except String α))
    (h : ∀ t ∈ tasks, ∃ a, t = Except.ok a) (i : Nat) (hi : i < tasks.length)
    (hi2 : i < (okResults tasks).length) :
    Except.ok ((okResults tasks).get ⟨i, hi2⟩) = tasks.get ⟨i, hi⟩ := by
  induction tasks generalizing i with
  | nil => exact absurd hi (Nat.not_lt_zero i)
  | cons t rest ih =>
    rcases h t (List.mem_cons_self t rest) with ⟨a, rfl⟩
    cases i with
    | zero => rfl
    | succ n =>
      exact ih (fun u hu => h u (List.mem_cons_of_mem _ hu)) n
        (Nat.lt_of_succ_lt_succ hi) (Nat.lt_of_succ_lt_succ hi2)

theorem firstErrorIn_mem {α : Type} (tasks : List (Except String α))
    (order : List Nat) (e : String) (h : firstErrorIn tasks order = some e) :
    ∃ k : Nat, tasks[k]? = some (Except.error e) := by
  induction order with
  | nil => simp [firstErrorIn] at h
  | cons i rest ih =>
    cases hg : tasks[i]? with
    | none => exact ih (by simpa [firstErrorIn, hg] using h)
    | some t =>
      cases t with
      | error eb =>
        have he : eb = e := by simpa [firstErrorIn, hg] using h
        exact ⟨i, by rw [hg, he]⟩
      | ok a => exact ih (by simpa [firstErrorIn, hg] using h)

theorem firstErrorIn_ne_none {α : Type} (tasks : List (Except String α))
    (order : List Nat) (j : Nat) (e : String) (hj : j ∈ order)
    (ht : tasks[j]? = some (Except.error e)) :
    firstErrorIn tasks order ≠ none := by
  induction order with
  | nil => cases hj
  | cons i rest ih =>
    cases hg : tasks[i]? with
    | none =>
      have hjr : j ∈ rest := by
        rcases List.mem_cons.mp hj with rfl | hr
        · rw [hg] at ht; cases ht
        · exact hr
      simpa [firstErrorIn, hg] using ih hjr
    | some t =>
      cases t with
      | error eb => simp [firstErrorIn, hg]
      | ok a =>
        have hjr : j ∈ rest := by
          rcases List.mem_cons.mp hj with rfl | hr
          · rw [hg] at ht; simp at ht
          · exact hr
        simpa [firstErrorIn, hg] using ih hjr

theorem allOk_of_firstErrorIn_none {α : Type} (tasks : List (Except String α))
    (order : List Nat) (hc : ∀ i, i < tasks.length → i ∈ order)
    (h : firstErrorIn tasks order = none) :
    ∀ t ∈ tasks, ∃ a, t = Except.ok a := by
  intro t ht
  rcases List.mem_iff_get.mp ht with ⟨⟨j, hj⟩, rfl⟩
  cases hgt : tasks.get ⟨j, hj⟩ with
  | ok a => exact ⟨a, rfl⟩
  | error e =>
    exact absurd h (firstErrorIn_ne_none tasks order j e (hc j hj)
      (by rw [List.getElem?_eq_getElem hj]; exact congrArg some hgt))

theorem gatherResults_ok {α : Type} (tasks : List (Except String α))
    (order : List Nat) (h : ∀ t ∈ tasks, ∃ a, t = Except.ok a) :
    gatherResults tasks order = Except.ok (okResults tasks) := by
  unfold gatherResults
  rw [firstErrorIn_eq_none tasks order h]

/-! ### Helper lemmas about the page task list -/

theorem pageTasks_eq (oracle : ModelOracle)
    (jsonLoads : String → Option JsonValue) (input_type : String)
    (hty : input_type = "PDF" ∨ input_type = "IMAGE" ∨ input_type = "TEXT")
    (imgs txts : List String) :
    pageTasks oracle jsonLoads input_type imgs txts =
      Except.ok ((pagesOf input_type imgs txts).enum.map (fun p =>
        pageExtract oracle jsonLoads input_type p.2 p.1)) := by
  rcases hty with h | h | h <;> subst h <;>
    simp [pageTasks, pagesOf, pageExtract]

theorem extract_multiple_pages_async_eq (oracle : ModelOracle)
    (jsonLoads : String → Option JsonValue) (input_type file_name : String)
    (imgs txts : List String) (cp : Bool) (order : List Nat)
    (hty : input_type = "PDF" ∨ input_type = "IMAGE" ∨ input_type = "TEXT") :
    extract_multiple_pages_async oracle jsonLoads input_type file_name imgs
        txts cp order =
      (let tasks := (pagesOf input_type imgs txts).enum.map (fun p =>
          pageExtract oracle jsonLoads input_type p.2 p.1)
       match gatherResults (tasks.map Prod.fst) order with
       | Except.error e => (Except.error e, (tasks.map Prod.snd).sum)
       | Except.ok results =>
         (Except.ok { response := results, file_name := file_name },
          (tasks.map Prod.snd).sum)) := by
  unfold extract_multiple_pages_async
  dsimp only
  rw [if_neg Bool.false_ne_true]
  rw [pageTasks_eq oracle jsonLoads input_type hty imgs txts]
  dsimp only
  cases gatherResults ((((pagesOf input_type imgs txts).enum.map (fun p =>
      pageExtract oracle jsonLoads input_type p.2 p.1))).map Prod.fst) order
    <;> simp

theorem pageTasksFst_allOk (oracle : ModelOracle)
    (jsonLoads : String → Option JsonValue) (ty : String)
    (pages : List String)
    (hok : ∀ i (hi : i < pages.length),
      ∃ r, (pageExtract oracle jsonLoads ty (pages.get ⟨i, hi⟩) i).1 =
        Except.ok r) :
    ∀ t ∈ (pages.enum.map (fun p =>
        pageExtract oracle jsonLoads ty p.2 p.1)).map Prod.fst,
      ∃ a, t = Except.ok a := by
  rw [List.map_map, List.forall_mem_map, List.forall_mem_enum]
  intro i hi
  rcases hok i hi with ⟨r, hr⟩
  exact ⟨r, by simpa using hr⟩

theorem pageTasksFst_length (oracle : ModelOracle)
    (jsonLoads : String → Option JsonValue) (ty : String)
    (pages : List String) :
    ((pages.enum.map (fun p =>
        pageExtract oracle jsonLoads ty p.2 p.1)).map Prod.fst).length =
      pages.length := by
  simp

theorem pageTasksFst_get (oracle : ModelOracle)
    (jsonLoads : String → Option JsonValue) (ty : String)
    (pages : List String) (i : Nat) (hi : i < pages.length)
    (hi2 : i < ((pages.enum.map (fun p =>
        pageExtract oracle jsonLoads ty p.2 p.1)).map Prod.fst).length) :
    ((pages.enum.map (fun p =>
        pageExtract oracle jsonLoads ty p.2 p.1)).map Prod.fst).get ⟨i, hi2⟩ =
      (pageExtract oracle jsonLoads ty (pages.get ⟨i, hi⟩) i).1 := by
  simp [List.get_eq_getElem, List.getElem_map, List.getElem_enum]

theorem pageTasksFst_getElem? (oracle : ModelOracle)
    (jsonLoads : String → Option JsonValue) (ty : String)
    (pages : List String) (j : Nat) (hj : j < pages.length) :
    ((pages.enum.map (fun p =>
        pageExtract oracle jsonLoads ty p.2 p.1)).map Prod.fst)[j]? =
      some ((pageExtract oracle jsonLoads ty (pages.get ⟨j, hj⟩) j).1) := by
  simp [List.getElem?_map, List.getElem?_enum, List.getElem?_eq_getElem hj]

/-! ### The claims -/

/-- Claim C5: for every `input_type` outside the permitted set (neither of
the two image kinds `"PDF"`/`"IMAGE"` nor `"TEXT"`, e.g. `"CSV"`),
`extract_fields_async` raises the unsupported-file-type `ValueError` with
zero model-client invocations, i.e. before any network call. -/
theorem C5_unsupported_kind_rejected_before_network (oracle : ModelOracle)
    (jsonLoads : String → Option JsonValue)
    (input_type base_64 text_input : String) (page_number : Nat)
    (h1 : input_type ≠ "PDF") (h2 : input_type ≠ "IMAGE")
    (h3 : input_type ≠ "TEXT") :
    extract_fields_async oracle jsonLoads input_type base_64 text_input
        page_number =
      (Except.error "Unsupported file type. Use 'PDF' or 'IMAGE'.", 0) := by
  unfold extract_fields_async
  rw [if_neg (fun h => h.elim h1 h2), if_neg h3]

/-- Witness for C5 at `input_type = "CSV"`. -/
theorem C5_witness :
    extract_fields_async emptyJsonOracle jsonLoadsW "CSV" "" "" 0 =
      (Except.error "Unsupported file type. Use 'PDF' or 'IMAGE'.", 0) :=
  C5_unsupported_kind_rejected_before_network emptyJsonOracle jsonLoadsW
    "CSV" "" "" 0 (by decide) (by decide) (by decide)

/-- Claim C6: for every raw text that strict JSON parsing accepts,
`parse_response_content` returns the strictly parsed value with zero model
calls, and the outcome does not depend on the model oracle (the fast path is
deterministic). -/
theorem C6_fast_path_no_model_call (jsonLoads : String → Option JsonValue)
    (oracle oracle2 : ModelOracle) (raw : String) (v : JsonValue)
    (h : jsonLoads raw = some v) :
    parse_response_content jsonLoads oracle raw = (PyResult.json v, 0) ∧
    parse_response_content jsonLoads oracle raw =
      parse_response_content jsonLoads oracle2 raw := by
  unfold parse_response_content
  rw [h]
  exact ⟨rfl, rfl⟩

/-- Witness for C6 at the valid JSON text of the empty object, compared
across two different model oracles. -/
theorem C6_witness :
    parse_response_content jsonLoadsW recordOracle "\x7b\x7d" =
      (PyResult.json (JsonValue.obj []), 0) ∧
    parse_response_content jsonLoadsW recordOracle "\x7b\x7d" =
      parse_response_content jsonLoadsW failingOracle "\x7b\x7d" :=
  C6_fast_path_no_model_call jsonLoadsW recordOracle failingOracle
    "\x7b\x7d" (JsonValue.obj []) rfl

/-- Claim C4: for every raw text that fails strict JSON parsing, when the
coercion model call yields a value that is not a (truthy) `ExtractionClass`
instance, `parse_response_content` returns the empty record and raises no
exception (it returns normally, with the one coercion call made). -/
theorem C4_nonconforming_repair_degrades_to_empty
    (jsonLoads : String → Option JsonValue) (oracle : ModelOracle)
    (raw : String) (hfail : jsonLoads raw = none)
    (hnc : oracle.parseOutput raw = CoerceResult.falsy ∨
           oracle.parseOutput raw = CoerceResult.wrongType) :
    parse_response_content jsonLoads oracle raw =
      (PyResult.json (JsonValue.obj []), 1) := by
  unfold parse_response_content
  rw [hfail]
  rcases hnc with h | h <;> rw [h]

/-- Witness for C4 at raw text that is not valid JSON, with a falsy coercion
result. -/
theorem C4_witness :
    parse_response_content jsonLoadsW emptyJsonOracle "not json" =
      (PyResult.json (JsonValue.obj []), 1) :=
  C4_nonconforming_repair_degrades_to_empty jsonLoadsW emptyJsonOracle
    "not json" rfl (Or.inl rfl)

/-- Claim C9: for every fixed input, `extract_multiple_pages_async` returns
the identical result for `combine_pages = true` and `combine_pages = false`:
the combine-all-pages branch is guarded by `if False` and the flag has no
observable effect. -/
theorem C9_combine_pages_has_no_effect (oracle : ModelOracle)
    (jsonLoads : String → Option JsonValue) (input_type file_name : String)
    (base64_images text_inputs : List String) (order : List Nat) :
    extract_multiple_pages_async oracle jsonLoads input_type file_name
        base64_images text_inputs true order =
      extract_multiple_pages_async oracle jsonLoads input_type file_name
        base64_images text_inputs false order := rfl

/-- Claim C10: for every valid input kind whose page sequence is empty,
`extract_multiple_pages_async` returns the empty response with the given file
name, performs no page extraction and no model call, and does not raise. -/
theorem C10_empty_pages_empty_response (oracle : ModelOracle)
    (jsonLoads : String → Option JsonValue) (input_type file_name : String)
    (base64_images text_inputs : List String) (combine_pages : Bool)
    (order : List Nat)
    (hty : input_type = "PDF" ∨ input_type = "IMAGE" ∨ input_type = "TEXT")
    (hempty : pagesOf input_type base64_images text_inputs = []) :
    extract_multiple_pages_async oracle jsonLoads input_type file_name
        base64_images text_inputs combine_pages order =
      (Except.ok { response := [], file_name := file_name }, 0) := by
  rw [extract_multiple_pages_async_eq oracle jsonLoads input_type file_name
    base64_images text_inputs combine_pages order hty]
  dsimp only
  rw [hempty]
  dsimp only [List.enum, List.enumFrom, List.map]
  rw [gatherResults_ok _ order (fun t ht => absurd ht (List.not_mem_nil t))]
  rfl

/-- Witness for C10: a TEXT document with no text pages. -/
theorem C10_witness :
    extract_multiple_pages_async emptyJsonOracle jsonLoadsW "TEXT"
        "empty.pdf" [] [] false [] =
      (Except.ok { response := [], file_name := "empty.pdf" }, 0) :=
  C10_empty_pages_empty_response emptyJsonOracle jsonLoadsW "TEXT"
    "empty.pdf" [] [] false [] (Or.inr (Or.inr rfl)) rfl

/-- Claim C2: for every valid input kind and ordered page sequence, when all
per-page extractions succeed, `extract_multiple_pages_async` succeeds with a
result whose `response` sequence has the same length as the page sequence and
whose i-th element is the result of extracting the i-th page — for every
completion order of the concurrent page tasks (`order` is universally
quantified and unconstrained). -/
theorem C2_responses_follow_input_order (oracle : ModelOracle)
    (jsonLoads : String → Option JsonValue) (input_type file_name : String)
    (base64_images text_inputs : List String) (combine_pages : Bool)
    (order : List Nat)
    (hty : input_type = "PDF" ∨ input_type = "IMAGE" ∨ input_type = "TEXT")
    (hok : ∀ i (hi : i < (pagesOf input_type base64_images text_inputs).length),
      ∃ r, (pageExtract oracle jsonLoads input_type
        ((pagesOf input_type base64_images text_inputs).get ⟨i, hi⟩) i).1 =
          Except.ok r) :
    ∃ resp : FinalResponse,
      (extract_multiple_pages_async oracle jsonLoads input_type file_name
        base64_images text_inputs combine_pages order).1 = Except.ok resp ∧
      resp.file_name = file_name ∧
      resp.response.length =
        (pagesOf input_type base64_images text_inputs).length ∧
      ∀ i (hi : i < (pagesOf input_type base64_images text_inputs).length)
        (hi2 : i < resp.response.length),
        Except.ok (resp.response.get ⟨i, hi2⟩) =
          (pageExtract oracle jsonLoads input_type
            ((pagesOf input_type base64_images text_inputs).get ⟨i, hi⟩) i).1 := by
  have hall := pageTasksFst_allOk oracle jsonLoads input_type
    (pagesOf input_type base64_images text_inputs) hok
  rw [extract_multiple_pages_async_eq oracle jsonLoads input_type file_name
    base64_images text_inputs combine_pages order hty]
  dsimp only
  rw [gatherResults_ok _ order hall]
  refine ⟨_, rfl, rfl, ?_, ?_⟩
  · rw [okResults_length _ hall, pageTasksFst_length]
  · intro i hi hi2
    have hlen : i < (((pagesOf input_type base64_images
        text_inputs).enum.map (fun p => pageExtract oracle jsonLoads
          input_type p.2 p.1)).map Prod.fst).length := by
      rw [pageTasksFst_length]; exact hi
    rw [okResults_get _ hall i hlen hi2,
      pageTasksFst_get oracle jsonLoads input_type _ i hi hlen]

/-- Witness for C2: a two-page PDF whose page tasks complete out of order
(completion order `[1, 0]`). -/
theorem C2_witness :
    ∃ resp : FinalResponse,
      (extract_multiple_pages_async emptyJsonOracle jsonLoadsW "PDF"
        "doc.pdf" ["A", "B"] [] false [1, 0]).1 = Except.ok resp ∧
      resp.file_name = "doc.pdf" ∧
      resp.response.length = (pagesOf "PDF" ["A", "B"] []).length ∧
      ∀ i (hi : i < (pagesOf "PDF" ["A", "B"] []).length)
        (hi2 : i < resp.response.length),
        Except.ok (resp.response.get ⟨i, hi2⟩) =
          (pageExtract emptyJsonOracle jsonLoadsW "PDF"
            ((pagesOf "PDF" ["A", "B"] []).get ⟨i, hi⟩) i).1 :=
  C2_responses_follow_input_order emptyJsonOracle jsonLoadsW "PDF" "doc.pdf"
    ["A", "B"] [] false [1, 0] (Or.inl rfl)
    (fun _ _ => ⟨PyResult.json (JsonValue.obj []), rfl⟩)

/-- Claim C7: for every document with at least one page whose extraction
raises, `extract_multiple_pages_async` fails with the exception of a failing
page (so no partial document result is returned); the hypothesis on `order`
says only that the gather awaits every task. -/
theorem C7_page_failure_fails_document (oracle : ModelOracle)
    (jsonLoads : String → Option JsonValue) (input_type file_name : String)
    (base64_images text_inputs : List String) (combine_pages : Bool)
    (order : List Nat)
    (hty : input_type = "PDF" ∨ input_type = "IMAGE" ∨ input_type = "TEXT")
    (hcomplete : ∀ i, i < (pagesOf input_type base64_images
        text_inputs).length → i ∈ order)
    (j : Nat) (hj : j < (pagesOf input_type base64_images text_inputs).length)
    (e : String)
    (hfail : (pageExtract oracle jsonLoads input_type
        ((pagesOf input_type base64_images text_inputs).get ⟨j, hj⟩) j).1 =
      Except.error e) :
    ∃ e2 : String,
      (∃ k, ∃ hk : k < (pagesOf input_type base64_images text_inputs).length,
        (pageExtract oracle jsonLoads input_type
          ((pagesOf input_type base64_images text_inputs).get ⟨k, hk⟩) k).1 =
            Except.error e2) ∧
      (extract_multiple_pages_async oracle jsonLoads input_type file_name
        base64_images text_inputs combine_pages order).1 =
          Except.error e2 := by
  rw [extract_multiple_pages_async_eq oracle jsonLoads input_type file_name
    base64_images text_inputs combine_pages order hty]
  dsimp only
  have hje : (((pagesOf input_type base64_images text_inputs).enum.map
      (fun p => pageExtract oracle jsonLoads input_type p.2 p.1)).map
        Prod.fst)[j]? = some (Except.error e) := by
    rw [pageTasksFst_getElem? oracle jsonLoads input_type _ j hj, hfail]
  have hne := firstErrorIn_ne_none _ order j e (hcomplete j hj) hje
  cases hfe : firstErrorIn (((pagesOf input_type base64_images
      text_inputs).enum.map (fun p => pageExtract oracle jsonLoads
        input_type p.2 p.1)).map Prod.fst) order with
  | none => exact absurd hfe hne
  | some e2 =>
    rcases firstErrorIn_mem _ order e2 hfe with ⟨k, hk⟩
    have hklt : k < (pagesOf input_type base64_images text_inputs).length := by
      by_contra hge
      rw [List.getElem?_eq_none (by
        rw [pageTasksFst_length]; omega)] at hk
      cases hk
    refine ⟨e2, ⟨k, hklt, ?_⟩, ?_⟩
    · rw [pageTasksFst_getElem? oracle jsonLoads input_type _ k hklt] at hk
      exact Option.some.inj hk
    · unfold gatherResults
      rw [hfe]

/-- Witness for C7: a two-page PDF whose second page raises a connection
error; the document fails with that error. -/
theorem C7_witness :
    ∃ e2 : String,
      (∃ k, ∃ hk : k < (pagesOf "PDF" ["A", "B"] []).length,
        (pageExtract failingOracle jsonLoadsW "PDF"
          ((pagesOf "PDF" ["A", "B"] []).get ⟨k, hk⟩) k).1 =
            Except.error e2) ∧
      (extract_multiple_pages_async failingOracle jsonLoadsW "PDF"
        "doc.pdf" ["A", "B"] [] false [1, 0]).1 = Except.error e2 :=
  C7_page_failure_fails_document failingOracle jsonLoadsW "PDF" "doc.pdf"
    ["A", "B"] [] false [1, 0] (Or.inl rfl)
    (fun i hi => by
      have h2 : i < 2 := hi
      interval_cases i <;> simp)
    1 (by decide) "APIConnectionError" rfl

/-- Counterexample to claim C3 as stated: a page extraction that returns
normally (the model answers with the valid JSON text of the empty object, so
the strict-parse fast path succeeds) yields a record with no keys at all —
in particular the schema field `fullName` is absent, not a string value. -/
theorem C3_counterexample_success_without_schema_keys :
    (extract_fields_async emptyJsonOracle jsonLoadsW "PDF" "IMG" "" 0).1 =
      Except.ok (PyResult.json (JsonValue.obj [])) ∧
    PyResult.keys (PyResult.json (JsonValue.obj [])) = some [] ∧
    "fullName" ∈ extractionFieldNames ∧
    "fullName" ∉ ([] : List String) := by
  refine ⟨rfl, rfl, ?_, ?_⟩
  · simp [extractionFieldNames]
  · simp

/-- Claim C3 (amended): when a successful page extraction returns an
`ExtractionClass` record — the repair path with a schema-conforming coercion
result — the record carries exactly the fixed 22 field names of the schema,
each bound to a string value. The strict-parse fast path instead returns
whatever JSON value parsed, with no key guarantee, and the degraded repair
path returns the empty record. -/
theorem C3_amended_record_results_have_schema_keys (oracle : ModelOracle)
    (jsonLoads : String → Option JsonValue)
    (input_type base_64 text_input : String) (page_number : Nat)
    (r : ExtractionClass) (n : Nat)
    (h : extract_fields_async oracle jsonLoads input_type base_64 text_input
        page_number = (Except.ok (PyResult.record r), n)) :
    PyResult.keys (PyResult.record r) = some extractionFieldNames ∧
    r.model_dump.map Prod.fst = extractionFieldNames ∧
    extractionFieldNames.length = 22 :=
  ⟨rfl, rfl, rfl⟩

/-- Witness for the amended C3: a TEXT page whose raw model output is not
valid JSON and whose coercion call returns a conforming record. -/
theorem C3_witness :
    PyResult.keys (PyResult.record defaultRecord) = some extractionFieldNames ∧
    defaultRecord.model_dump.map Prod.fst = extractionFieldNames ∧
    extractionFieldNames.length = 22 :=
  C3_amended_record_results_have_schema_keys recordOracle jsonLoadsW "TEXT"
    "" "page text" 0 defaultRecord 2 rfl

/-- Claim C1 (code bug): `extract_multiple_pdfs` never compares
`input_paths.length` with `output_paths.length`. On 3 input paths and 2
output paths it raises nothing, extracts all three documents, and silently
writes only the first two results (the write loop zips the results with the
output paths) — its own docstring promises a `ValueError` instead. -/
theorem C1_no_length_mismatch_error :
    (extract_multiple_pdfs emptyJsonOracle jsonLoadsW pdfOraclesW
        ["a.pdf", "b.pdf", "c.pdf"] ["o1.json", "o2.json"] false false ""
        (fun _ => [0]) [0, 1, 2]).1 =
      Except.ok
        [{ response := [PyResult.json (JsonValue.obj [])], file_name := "a.pdf" },
         { response := [PyResult.json (JsonValue.obj [])], file_name := "b.pdf" },
         { response := [PyResult.json (JsonValue.obj [])], file_name := "c.pdf" }] ∧
    (extract_multiple_pdfs emptyJsonOracle jsonLoadsW pdfOraclesW
        ["a.pdf", "b.pdf", "c.pdf"] ["o1.json", "o2.json"] false false ""
        (fun _ => [0]) [0, 1, 2]).2 =
      [("o1.json",
        { response := [PyResult.json (JsonValue.obj [])], file_name := "a.pdf" }),
       ("o2.json",
        { response := [PyResult.json (JsonValue.obj [])], file_name := "b.pdf" })] :=
  ⟨rfl, rfl⟩

theorem driverTasks_length (oracle : ModelOracle)
    (jsonLoads : String → Option JsonValue) (po : PdfOracles)
    (input_paths : List String) (use_parse save_parse : Bool) (dir : String)
    (orders : Nat → List Nat)
    (hpre : use_parse = true →
      (po.landing_ai_vision_parse input_paths save_parse dir).length =
        input_paths.length) :
    (driverTasks oracle jsonLoads po input_paths use_parse save_parse dir
      orders).length = input_paths.length := by
  cases use_parse with
  | false => simp [driverTasks]
  | true => simp [driverTasks, List.length_zip, hpre rfl]

/-- Claim C8: on a successful run with equal-length path lists (and, in
pre-parsed mode, an external parsing collaborator that returns one
parsed result per document, as its interface promises), the write trace has
one entry per input document, its i-th entry writes to the i-th output path
the i-th document's result, and that result is exactly the outcome of the
i-th per-document pipeline task. The hypothesis on `docOrder` says only that
the gather awaits every document task. -/
theorem C8_each_document_written_to_its_path (oracle : ModelOracle)
    (jsonLoads : String → Option JsonValue) (po : PdfOracles)
    (input_paths output_paths : List String) (use_parse save_parse : Bool)
    (dir : String) (orders : Nat → List Nat) (docOrder : List Nat)
    (results : List FinalResponse)
    (hlen : input_paths.length = output_paths.length)
    (hpre : use_parse = true →
      (po.landing_ai_vision_parse input_paths save_parse dir).length =
        input_paths.length)
    (hcomplete : ∀ i, i < (driverTasks oracle jsonLoads po input_paths
        use_parse save_parse dir orders).length → i ∈ docOrder)
    (hok : (extract_multiple_pdfs oracle jsonLoads po input_paths
        output_paths use_parse save_parse dir orders docOrder).1 =
      Except.ok results) :
    results.length = input_paths.length ∧
    (extract_multiple_pdfs oracle jsonLoads po input_paths output_paths
        use_parse save_parse dir orders docOrder).2.length =
      input_paths.length ∧
    ∀ i (hi : i < input_paths.length) (hr : i < results.length)
      (hw : i < (extract_multiple_pdfs oracle jsonLoads po input_paths
        output_paths use_parse save_parse dir orders docOrder).2.length)
      (hd : i < (driverTasks oracle jsonLoads po input_paths use_parse
        save_parse dir orders).length),
      (extract_multiple_pdfs oracle jsonLoads po input_paths output_paths
          use_parse save_parse dir orders docOrder).2.get ⟨i, hw⟩ =
        (output_paths.get ⟨i, hlen ▸ hi⟩, results.get ⟨i, hr⟩) ∧
      Except.ok (results.get ⟨i, hr⟩) =
        ((driverTasks oracle jsonLoads po input_paths use_parse save_parse
          dir orders).get ⟨i, hd⟩).1 := by
  have htl := driverTasks_length oracle jsonLoads po input_paths use_parse
    save_parse dir orders hpre
  unfold extract_multiple_pdfs at hok ⊢
  dsimp only at hok ⊢
  cases hgm : gatherResults ((driverTasks oracle jsonLoads po input_paths
      use_parse save_parse dir orders).map Prod.fst) docOrder with
  | error e =>
    rw [hgm] at hok
    simp at hok
  | ok rs =>
    rw [hgm] at hok
    dsimp only at hok ⊢
    have hres : rs = results := by simpa using hok
    subst hres
    have hnone : firstErrorIn ((driverTasks oracle jsonLoads po input_paths
        use_parse save_parse dir orders).map Prod.fst) docOrder = none := by
      cases hfe : firstErrorIn ((driverTasks oracle jsonLoads po input_paths
          use_parse save_parse dir orders).map Prod.fst) docOrder with
      | none => rfl
      | some e2 =>
        unfold gatherResults at hgm
        rw [hfe] at hgm
        cases hgm
    have hall := allOk_of_firstErrorIn_none
      ((driverTasks oracle jsonLoads po input_paths use_parse save_parse dir
        orders).map Prod.fst) docOrder
      (fun i hi => hcomplete i (by simpa using hi)) hnone
    have hOkRes : okResults ((driverTasks oracle jsonLoads po input_paths
        use_parse save_parse dir orders).map Prod.fst) = rs := by
      unfold gatherResults at hgm
      rw [hnone] at hgm
      exact Except.ok.inj hgm
    subst hOkRes
    have hA : (okResults ((driverTasks oracle jsonLoads po input_paths
        use_parse save_parse dir orders).map Prod.fst)).length =
          input_paths.length := by
      rw [okResults_length _ hall, List.length_map, htl]
    refine ⟨hA, ?_, ?_⟩
    · rw [List.length_map, List.length_zip, hA, ← hlen]
      exact min_self input_paths.length
    · intro i hi hr hw hd
      constructor
      · simp only [List.get_eq_getElem, List.getElem_map, List.getElem_zip]
      · have hfst : i < ((driverTasks oracle jsonLoads po input_paths
            use_parse save_parse dir orders).map Prod.fst).length := by
          simpa using hd
        exact (okResults_get _ hall i hfst hr).trans
          (by simp [List.get_eq_getElem, List.getElem_map])

/-- Witness for C8: one PDF document, one output path, direct mode. -/
theorem C8_witness :
    (extract_multiple_pdfs emptyJsonOracle jsonLoadsW pdfOraclesW ["a.pdf"]
        ["o.json"] false false "" (fun _ => [0]) [0]).2.length =
      (["a.pdf"] : List String).length := by
  have h := C8_each_document_written_to_its_path emptyJsonOracle jsonLoadsW
    pdfOraclesW ["a.pdf"] ["o.json"] false false "" (fun _ => [0]) [0]
    [{ response := [PyResult.json (JsonValue.obj [])], file_name := "a.pdf" }]
    rfl (fun hh => nomatch hh)
    (fun i hi => by
      have h0 : i = 0 := Nat.lt_one_iff.mp hi
      simp [h0])
    rfl
  exact h.2.1

end Extraction
